import Mathlib

/-
Verification of the Declension Engine: a shallow embedding of the
genitive-to-nominative case normalization pipeline of src/main.py.

Tokens are modelled as lists of Unicode characters, matching the semantics
of Python strings as sequences of code points.  Python operations that can
raise an IndexError (negative indexing such as in_str[-2] on a too-short
string) are modelled with Option: a none result models a raised exception.
Python sets are modelled as duplicate-free lists with an add operation
that is a no-op when the element is already present; Python dicts are
modelled as association lists where insertion prepends and lookup takes
the first match, so that later insertions shadow earlier ones exactly as
dict assignment overwrites.
-/

/-- A token: one word as a sequence of Unicode characters. -/
abbrev Token := List Char

/-- Dictionary lookup: first matching key wins (insertion prepends, so the
most recent assignment for a key is found first, as in a Python dict). -/
def lookupTable : List (Token × Token) → Token → Option Token
  | [], _ => none
  | (a, b) :: rest, k => if a = k then some b else lookupTable rest k

/-- Python set.add on a list-as-set: a no-op when the element is present. -/
def addSet (l : List Token) (x : Token) : List Token :=
  if x ∈ l then l else x :: l

/-- Python slice s[-k:] (k at least 1): the trailing k characters, or the
whole string when it is shorter than k.  Never fails. -/
def tailSlice (s : Token) (k : Nat) : Token := s.drop (s.length - k)

/-- Python index s[-k] (k at least 1): the k-th character from the end, or
none (an IndexError) when the string is shorter than k. -/
def charAtNeg (s : Token) (k : Nat) : Option Char := s.reverse.get? (k - 1)

/-- Whether the first list is an initial segment of the second. -/
def leadsWith : List Char → List Char → Bool
  | [], _ => true
  | _ :: _, [] => false
  | a :: pat, b :: rest => a == b && leadsWith pat rest

/-- Python str.replace(old, new, 1): replace the first (leftmost)
occurrence of old with new; the empty pattern matches at the front. -/
def replaceFirst (old new : List Char) : List Char → List Char
  | [] => if leadsWith old [] then new else []
  | c :: cs =>
      if leadsWith old (c :: cs) then new ++ (c :: cs).drop old.length
      else c :: replaceFirst old new cs

/-- Declension.replace (src/main.py lines 166-171): reverse the string,
replace the first occurrence of the reversed removal with the reversed
replacement, and reverse back. -/
def Declension.replace (string removal replacement : Token) : Token :=
  (replaceFirst removal.reverse replacement.reverse string.reverse).reverse

/-- Helper for splitWs: accumulates the current word (reversed). -/
def splitWsAux : List Char → List Char → List (List Char)
  | [], acc => if acc = [] then [] else [acc.reverse]
  | c :: cs, acc =>
      if c.isWhitespace then
        (if acc = [] then splitWsAux cs [] else acc.reverse :: splitWsAux cs [])
      else splitWsAux cs (c :: acc)

/-- Python str.split() with no arguments: the maximal runs of
non-whitespace characters, so leading, trailing and repeated whitespace
produce no empty fields (this also subsumes the prior str.strip()). -/
def splitWs (s : List Char) : List (List Char) := splitWsAux s []

/-- One line of SubstitutionDictionary.fill_substitutions
(src/main.py lines 120-124): split the line on whitespace; a single field
maps to itself; otherwise the first field maps to the second and any
further fields are ignored; an empty split makes pair[0] raise an
IndexError, modelled as none. -/
def fill_line (d : List (Token × Token)) (line : Token) :
    Option (List (Token × Token)) :=
  match splitWs line with
  | [] => none
  | [p0] => some ((p0, p0) :: d)
  | p0 :: p1 :: _ => some ((p0, p1) :: d)

/-- SubstitutionDictionary.fill_substitutions over the lines of the list
file, in order, starting from a given dictionary. -/
def fill_substitutions : List Token → List (Token × Token) →
    Option (List (Token × Token))
  | [], d => some d
  | line :: rest, d =>
      match fill_line d line with
      | none => none
      | some d2 => fill_substitutions rest d2

/-- The state of a SubstitutionDictionary object: the mapping itself and
the replaced_set that its replace method mutates on a hit. -/
structure SubstitutionDictionary where
  dictionary : List (Token × Token)
  replaced_set : List Token
deriving DecidableEq

/-- SubstitutionDictionary.replace (src/main.py lines 128-135): on a hit,
return (True, mapped value) and add the mapped value to replaced_set; on a
miss return (False, input) with the object unchanged. -/
def SubstitutionDictionary.replace (sd : SubstitutionDictionary)
    (string : Token) : (Bool × Token) × SubstitutionDictionary :=
  match lookupTable sd.dictionary string with
  | some new_string =>
      ((true, new_string), ⟨sd.dictionary, addSet sd.replaced_set new_string⟩)
  | none => ((false, string), sd)

/-- consonants_rule_u (src/main.py line 141), shared by both variants. -/
def consonants_rule_u : List Char := "бвдзнпрстфчхшц".data

/-- The capability set of a declension variant (the three abstract methods
of the Declension base class).  Each can fail (IndexError), hence Option. -/
structure DeclensionRules where
  replace_suffix : Token → Option (Bool × Token)
  check_exclusion_rules : Token → Option Bool
  check_to_filter_after_all : Token → Option Bool

/-- NameDeclension.replace_suffix (src/main.py lines 231-274). -/
def NameDeclension.replace_suffix (in_str : Token) : Option (Bool × Token) :=
  let suffix_1 := tailSlice in_str 1
  let suffix_2 := tailSlice in_str 2
  if suffix_1 = "у".data then
    (charAtNeg in_str 2).map (fun c =>
      if c ∈ consonants_rule_u ∨ c ∈ "мнлк".data then
        (true, Declension.replace in_str (c :: "у".data) [c])
      else (false, in_str))
  else if suffix_1 = "і".data then
    (charAtNeg in_str 2).map (fun c =>
      if c ∈ "дмнштр".data then
        (true, Declension.replace in_str (c :: "і".data) (c :: "а".data))
      else if c = 'ц' then
        (true, Declension.replace in_str "ці".data "ка".data)
      else (false, in_str))
  else if suffix_1 = "ю".data then
    if suffix_2 = "рю".data then
      some (true, Declension.replace in_str "рю".data "рь".data)
    else if suffix_2 = "ею".data then
      some (true, Declension.replace in_str "ею".data "ей".data)
    else if suffix_2 = "ію".data then
      some (true, Declension.replace in_str "ію".data "ій".data)
    else if suffix_2 = "лю".data then
      some (true, Declension.replace in_str "лю".data "ль".data)
    else some (false, in_str)
  else if suffix_1 = "ї".data then
    if suffix_2 = "ії".data then
      some (true, Declension.replace in_str "ії".data "ія".data)
    else if suffix_2 = "еї".data then
      some (true, Declension.replace in_str "еї".data "ея".data)
    else some (false, in_str)
  else some (false, in_str)

/-- NameDeclension.check_exclusion_rules (src/main.py lines 276-284):
in_str[-1] raises on the empty token; then final character or length 1. -/
def NameDeclension.check_exclusion_rules (in_str : Token) : Option Bool :=
  (charAtNeg in_str 1).map (fun c =>
    if c ∈ "яйанпось.".data then true
    else if in_str.length = 1 then true
    else false)

/-- NameDeclension.check_to_filter_after_all (src/main.py lines 228-229):
always False. -/
def NameDeclension.check_to_filter_after_all (_in_str : Token) : Option Bool :=
  some false

/-- SurnameDeclension.consonants (src/main.py lines 291-293). -/
def SurnameDeclension.consonants : List Char := "бвгґджзклмнпрстфхцчшщь".data

/-- SurnameDeclension.replace_suffix (src/main.py lines 301-371). -/
def SurnameDeclension.replace_suffix (in_str : Token) :
    Option (Bool × Token) :=
  let suffix_1 := tailSlice in_str 1
  let suffix_2 := tailSlice in_str 2
  let suffix_3 := tailSlice in_str 3
  if suffix_2 = "ій".data then
    some (true, Declension.replace in_str "ій".data "а".data)
  else if suffix_3 = "ому".data then
    (charAtNeg in_str 4).map (fun c =>
      if c = 'ь' then (true, Declension.replace in_str "ьому".data "ій".data)
      else (true, Declension.replace in_str "ому".data "ий".data))
  else if suffix_2 = "ку".data then
    (charAtNeg in_str 3).map (fun c =>
      if c ∈ SurnameDeclension.consonants ∨ c = 'й' then
        (true, Declension.replace in_str "ку".data "ко".data)
      else (true, Declension.replace in_str "ку".data "к".data))
  else if suffix_1 = "у".data then
    (charAtNeg in_str 2).map (fun c =>
      if c ∈ consonants_rule_u then
        (true, Declension.replace in_str (c :: "у".data) [c])
      else (false, in_str))
  else if suffix_1 = "ю".data then
    if suffix_2 = "ію".data then
      some (true, Declension.replace in_str "ію".data "ій".data)
    else if suffix_2 = "аю".data then
      some (true, Declension.replace in_str "аю".data "ай".data)
    else if suffix_2 = "ню".data then
      some (true, Declension.replace in_str "ню".data "нь".data)
    else if suffix_2 = "лю".data then
      some (true, Declension.replace in_str "лю".data "ль".data)
    else if suffix_2 = "дю".data then
      some (true, Declension.replace in_str "дю".data "дь".data)
    else if suffix_2 = "рю".data then
      some (true, Declension.replace in_str "рю".data "р".data)
    else if suffix_2 = "цю".data then
      (charAtNeg in_str 3).map (fun c =>
        if c = 'е' then (true, Declension.replace in_str "цю".data "ць".data)
        else if c = 'й' then
          (true, Declension.replace in_str "йцю".data "єць".data)
        else (true, Declension.replace in_str "цю".data "ець".data))
    else some (false, in_str)
  else if suffix_1 = "і".data then
    if suffix_2 = "бі".data then
      some (true, Declension.replace in_str "бі".data "ба".data)
    else if suffix_2 = "ді".data then
      some (true, Declension.replace in_str "ді".data "да".data)
    else some (false, in_str)
  else some (false, in_str)

/-- SurnameDeclension.check_exclusion_rules (src/main.py lines 373-380):
in_str[-1] raises on the empty token; then consonant, final о, or ко. -/
def SurnameDeclension.check_exclusion_rules (in_str : Token) : Option Bool :=
  (charAtNeg in_str 1).map (fun c =>
    if c ∈ SurnameDeclension.consonants ∨ c ∈ "о".data ∨
        tailSlice in_str 2 ∈ ["ко".data] then true
    else false)

/-- SurnameDeclension.check_to_filter_after_all (src/main.py lines 382-387). -/
def SurnameDeclension.check_to_filter_after_all (in_str : Token) :
    Option Bool :=
  (charAtNeg in_str 1).map (fun c => if c = 'й' then true else false)

/-- The Name variant of the rule set. -/
def nameRules : DeclensionRules :=
  ⟨NameDeclension.replace_suffix, NameDeclension.check_exclusion_rules,
   NameDeclension.check_to_filter_after_all⟩

/-- The Surname variant of the rule set. -/
def surnameRules : DeclensionRules :=
  ⟨SurnameDeclension.replace_suffix, SurnameDeclension.check_exclusion_rules,
   SurnameDeclension.check_to_filter_after_all⟩

/-- The mutable state of a Declension engine instance (src/main.py
lines 139-147): the substitution dictionary object, the three
classification bucket sets created in the base constructor, and the
memoization cache. -/
structure DecState where
  sub : SubstitutionDictionary
  names_set_filtered : List Token
  names_set_replaced : List Token
  names_set_not_filtered : List Token
  replaced_dictionary_cache : List (Token × Token)
deriving DecidableEq

/-- A freshly constructed engine over a loaded dictionary: empty buckets,
empty cache, empty replaced_set. -/
def initState (d : List (Token × Token)) : DecState := ⟨⟨d, []⟩, [], [], [], []⟩

/-- Declension.from_genitive_to_nominative_case (src/main.py
lines 173-215).  Returns the normalized token and the updated engine
state, or none when the Python code would raise an IndexError. -/
def from_genitive_to_nominative_case (R : DeclensionRules) (st : DecState)
    (in_str : Token) : Option (Token × DecState) :=
  match lookupTable st.replaced_dictionary_cache in_str with
  | some new_str => some (new_str, st)
  | none =>
    match SubstitutionDictionary.replace st.sub in_str with
    | ((true, new_str), sub1) =>
        some (new_str, ⟨sub1, st.names_set_filtered, st.names_set_replaced,
          st.names_set_not_filtered,
          (in_str, new_str) :: st.replaced_dictionary_cache⟩)
    | ((false, _), sub1) =>
        match R.check_exclusion_rules in_str with
        | none => none
        | some true =>
            some (in_str, ⟨sub1, addSet st.names_set_filtered in_str,
              st.names_set_replaced, st.names_set_not_filtered,
              (in_str, in_str) :: st.replaced_dictionary_cache⟩)
        | some false =>
            match R.replace_suffix in_str with
            | none => none
            | some (true, new_str) =>
                some (new_str, ⟨sub1, st.names_set_filtered,
                  addSet st.names_set_replaced new_str,
                  st.names_set_not_filtered,
                  (in_str, new_str) :: st.replaced_dictionary_cache⟩)
            | some (false, _) =>
                match R.check_to_filter_after_all in_str with
                | none => none
                | some true =>
                    some (in_str, ⟨sub1, addSet st.names_set_filtered in_str,
                      st.names_set_replaced, st.names_set_not_filtered,
                      st.replaced_dictionary_cache⟩)
                | some false =>
                    some (in_str, ⟨sub1, st.names_set_filtered,
                      st.names_set_replaced,
                      addSet st.names_set_not_filtered in_str,
                      st.replaced_dictionary_cache⟩)

/-- A sequence of normalize calls threaded through the engine state;
none when any call raises. -/
def runAll (R : DeclensionRules) : DecState → List Token → Option DecState
  | st, [] => some st
  | st, t :: ts =>
      match from_genitive_to_nominative_case R st t with
      | none => none
      | some (_, st2) => runAll R st2 ts

theorem lookupTable_cons (a b : Token) (rest : List (Token × Token))
    (k : Token) :
    lookupTable ((a, b) :: rest) k =
      if a = k then some b else lookupTable rest k := rfl

theorem lookupTable_cons_self (a b : Token) (rest : List (Token × Token)) :
    lookupTable ((a, b) :: rest) a = some b := by
  rw [lookupTable_cons, if_pos rfl]

theorem lookupTable_cons_ne_none (a b : Token) (rest : List (Token × Token))
    (k : Token) (h : lookupTable rest k ≠ none) :
    lookupTable ((a, b) :: rest) k ≠ none := by
  rw [lookupTable_cons]
  split
  · exact Option.some_ne_none b
  · exact h

theorem lookupTable_cons_other (a b : Token) (rest : List (Token × Token))
    (k : Token) (h : a ≠ k) :
    lookupTable ((a, b) :: rest) k = lookupTable rest k := by
  rw [lookupTable_cons, if_neg h]

theorem addSet_mem_self (l : List Token) (x : Token) : x ∈ addSet l x := by
  unfold addSet
  split
  · assumption
  · exact List.mem_cons_self x l

theorem mem_addSet_of_mem (l : List Token) (x y : Token) (h : y ∈ l) :
    y ∈ addSet l x := by
  unfold addSet
  split
  · exact h
  · exact List.mem_cons_of_mem x h

theorem addSet_of_mem (l : List Token) (x : Token) (h : x ∈ l) :
    addSet l x = l := if_pos h

theorem sub_replace_hit (sd : SubstitutionDictionary) (s v : Token)
    (h : lookupTable sd.dictionary s = some v) :
    SubstitutionDictionary.replace sd s =
      ((true, v), ⟨sd.dictionary, addSet sd.replaced_set v⟩) := by
  unfold SubstitutionDictionary.replace
  rw [h]

theorem sub_replace_miss (sd : SubstitutionDictionary) (s : Token)
    (h : lookupTable sd.dictionary s = none) :
    SubstitutionDictionary.replace sd s = ((false, s), sd) := by
  unfold SubstitutionDictionary.replace
  rw [h]

/-- Path shape: cache hit (step 1): the cached value is returned and the
state is untouched. -/
theorem fg_eq_cached (R : DeclensionRules) (st : DecState) (t w : Token)
    (hc : lookupTable st.replaced_dictionary_cache t = some w) :
    from_genitive_to_nominative_case R st t = some (w, st) := by
  unfold from_genitive_to_nominative_case
  rw [hc]

/-- Path shape: dictionary hit (step 2): the mapped value is returned,
cached, and added to the replaced_set of the dictionary object; no bucket
is touched. -/
theorem fg_eq_dict (R : DeclensionRules) (st : DecState) (t v : Token)
    (hc : lookupTable st.replaced_dictionary_cache t = none)
    (hd : lookupTable st.sub.dictionary t = some v) :
    from_genitive_to_nominative_case R st t =
      some (v, ⟨⟨st.sub.dictionary, addSet st.sub.replaced_set v⟩,
        st.names_set_filtered, st.names_set_replaced,
        st.names_set_not_filtered,
        (t, v) :: st.replaced_dictionary_cache⟩) := by
  unfold from_genitive_to_nominative_case
  rw [hc, sub_replace_hit st.sub t v hd]

/-- Path shape: exclusion (step 3.1): the token goes to
names_set_filtered, is cached mapped to itself, and is returned unchanged. -/
theorem fg_eq_excl (R : DeclensionRules) (st : DecState) (t : Token)
    (hc : lookupTable st.replaced_dictionary_cache t = none)
    (hd : lookupTable st.sub.dictionary t = none)
    (he : R.check_exclusion_rules t = some true) :
    from_genitive_to_nominative_case R st t =
      some (t, ⟨st.sub, addSet st.names_set_filtered t, st.names_set_replaced,
        st.names_set_not_filtered,
        (t, t) :: st.replaced_dictionary_cache⟩) := by
  unfold from_genitive_to_nominative_case
  rw [hc, sub_replace_miss st.sub t hd, he]

/-- Path shape: suffix rule fired (step 3.2): the result (not the input)
goes to names_set_replaced, the input is cached mapped to the result, and
the result is returned. -/
theorem fg_eq_rule (R : DeclensionRules) (st : DecState) (t w : Token)
    (hc : lookupTable st.replaced_dictionary_cache t = none)
    (hd : lookupTable st.sub.dictionary t = none)
    (he : R.check_exclusion_rules t = some false)
    (hr : R.replace_suffix t = some (true, w)) :
    from_genitive_to_nominative_case R st t =
      some (w, ⟨st.sub, st.names_set_filtered,
        addSet st.names_set_replaced w, st.names_set_not_filtered,
        (t, w) :: st.replaced_dictionary_cache⟩) := by
  unfold from_genitive_to_nominative_case
  rw [hc, sub_replace_miss st.sub t hd, he, hr]

/-- Path shape: terminal filter (step 3.3, filtered): the token goes to
names_set_filtered, the cache is NOT touched, and the token is returned
unchanged. -/
theorem fg_eq_filtered (R : DeclensionRules) (st : DecState) (t u : Token)
    (hc : lookupTable st.replaced_dictionary_cache t = none)
    (hd : lookupTable st.sub.dictionary t = none)
    (he : R.check_exclusion_rules t = some false)
    (hr : R.replace_suffix t = some (false, u))
    (hf : R.check_to_filter_after_all t = some true) :
    from_genitive_to_nominative_case R st t =
      some (t, ⟨st.sub, addSet st.names_set_filtered t, st.names_set_replaced,
        st.names_set_not_filtered, st.replaced_dictionary_cache⟩) := by
  unfold from_genitive_to_nominative_case
  rw [hc, sub_replace_miss st.sub t hd, he, hr, hf]

/-- Path shape: unresolved (step 3.3, not filtered): the token goes to
names_set_not_filtered, the cache is NOT touched, and the token is
returned unchanged. -/
theorem fg_eq_unresolved (R : DeclensionRules) (st : DecState) (t u : Token)
    (hc : lookupTable st.replaced_dictionary_cache t = none)
    (hd : lookupTable st.sub.dictionary t = none)
    (he : R.check_exclusion_rules t = some false)
    (hr : R.replace_suffix t = some (false, u))
    (hf : R.check_to_filter_after_all t = some false) :
    from_genitive_to_nominative_case R st t =
      some (t, ⟨st.sub, st.names_set_filtered, st.names_set_replaced,
        addSet st.names_set_not_filtered t, st.replaced_dictionary_cache⟩) := by
  unfold from_genitive_to_nominative_case
  rw [hc, sub_replace_miss st.sub t hd, he, hr, hf]

/-- Path shape: IndexError inside check_exclusion_rules. -/
theorem fg_eq_crash_excl (R : DeclensionRules) (st : DecState) (t : Token)
    (hc : lookupTable st.replaced_dictionary_cache t = none)
    (hd : lookupTable st.sub.dictionary t = none)
    (he : R.check_exclusion_rules t = none) :
    from_genitive_to_nominative_case R st t = none := by
  unfold from_genitive_to_nominative_case
  rw [hc, sub_replace_miss st.sub t hd, he]

/-- Path shape: IndexError inside replace_suffix. -/
theorem fg_eq_crash_rule (R : DeclensionRules) (st : DecState) (t : Token)
    (hc : lookupTable st.replaced_dictionary_cache t = none)
    (hd : lookupTable st.sub.dictionary t = none)
    (he : R.check_exclusion_rules t = some false)
    (hr : R.replace_suffix t = none) :
    from_genitive_to_nominative_case R st t = none := by
  unfold from_genitive_to_nominative_case
  rw [hc, sub_replace_miss st.sub t hd, he, hr]

/-- Path shape: IndexError inside check_to_filter_after_all. -/
theorem fg_eq_crash_filter (R : DeclensionRules) (st : DecState) (t u : Token)
    (hc : lookupTable st.replaced_dictionary_cache t = none)
    (hd : lookupTable st.sub.dictionary t = none)
    (he : R.check_exclusion_rules t = some false)
    (hr : R.replace_suffix t = some (false, u))
    (hf : R.check_to_filter_after_all t = none) :
    from_genitive_to_nominative_case R st t = none := by
  unfold from_genitive_to_nominative_case
  rw [hc, sub_replace_miss st.sub t hd, he, hr, hf]

/-- Inversion: a successful normalize call is one of the six paths of the
decision chain, with the exact output and post-state of that path. -/
theorem fg_cases (R : DeclensionRules) (st : DecState) (t r : Token)
    (st2 : DecState)
    (h : from_genitive_to_nominative_case R st t = some (r, st2)) :
    (lookupTable st.replaced_dictionary_cache t = some r ∧ st2 = st) ∨
    (lookupTable st.replaced_dictionary_cache t = none ∧
      ((lookupTable st.sub.dictionary t = some r ∧
         st2 = ⟨⟨st.sub.dictionary, addSet st.sub.replaced_set r⟩,
           st.names_set_filtered, st.names_set_replaced,
           st.names_set_not_filtered,
           (t, r) :: st.replaced_dictionary_cache⟩) ∨
       (lookupTable st.sub.dictionary t = none ∧
         ((R.check_exclusion_rules t = some true ∧ r = t ∧
            st2 = ⟨st.sub, addSet st.names_set_filtered t,
              st.names_set_replaced, st.names_set_not_filtered,
              (t, t) :: st.replaced_dictionary_cache⟩) ∨
          (R.check_exclusion_rules t = some false ∧
            ((R.replace_suffix t = some (true, r) ∧
               st2 = ⟨st.sub, st.names_set_filtered,
                 addSet st.names_set_replaced r, st.names_set_not_filtered,
                 (t, r) :: st.replaced_dictionary_cache⟩) ∨
             ((∃ u, R.replace_suffix t = some (false, u)) ∧ r = t ∧
               ((R.check_to_filter_after_all t = some true ∧
                  st2 = ⟨st.sub, addSet st.names_set_filtered t,
                    st.names_set_replaced, st.names_set_not_filtered,
                    st.replaced_dictionary_cache⟩) ∨
                (R.check_to_filter_after_all t = some false ∧
                  st2 = ⟨st.sub, st.names_set_filtered,
                    st.names_set_replaced,
                    addSet st.names_set_not_filtered t,
                    st.replaced_dictionary_cache⟩)))))))))  := by
  cases hc : lookupTable st.replaced_dictionary_cache t with
  | some w =>
    rw [fg_eq_cached R st t w hc] at h
    injection h with h1
    injection h1 with hr hst
    subst hr
    exact Or.inl ⟨rfl, hst.symm⟩
  | none =>
    cases hd : lookupTable st.sub.dictionary t with
    | some v =>
      rw [fg_eq_dict R st t v hc hd] at h
      injection h with h1
      injection h1 with hr hst
      subst hr
      exact Or.inr ⟨rfl, Or.inl ⟨rfl, hst.symm⟩⟩
    | none =>
      cases he : R.check_exclusion_rules t with
      | none => rw [fg_eq_crash_excl R st t hc hd he] at h; cases h
      | some b =>
        cases b with
        | true =>
          rw [fg_eq_excl R st t hc hd he] at h
          injection h with h1
          injection h1 with hr hst
          subst hr
          exact Or.inr ⟨rfl, Or.inr ⟨rfl, Or.inl ⟨rfl, rfl, hst.symm⟩⟩⟩
        | false =>
          cases hr : R.replace_suffix t with
          | none => rw [fg_eq_crash_rule R st t hc hd he hr] at h; cases h
          | some p =>
            cases p with
            | mk matched u =>
              cases matched with
              | true =>
                rw [fg_eq_rule R st t u hc hd he hr] at h
                injection h with h1
                injection h1 with hru hst
                subst hru
                exact Or.inr ⟨rfl, Or.inr ⟨rfl, Or.inr ⟨rfl,
                  Or.inl ⟨rfl, hst.symm⟩⟩⟩⟩
              | false =>
                cases hf : R.check_to_filter_after_all t with
                | none =>
                  rw [fg_eq_crash_filter R st t u hc hd he hr hf] at h
                  cases h
                | some b2 =>
                  cases b2 with
                  | true =>
                    rw [fg_eq_filtered R st t u hc hd he hr hf] at h
                    injection h with h1
                    injection h1 with hru hst
                    subst hru
                    exact Or.inr ⟨rfl, Or.inr ⟨rfl, Or.inr ⟨rfl,
                      Or.inr ⟨⟨u, rfl⟩, rfl, Or.inl ⟨rfl, hst.symm⟩⟩⟩⟩⟩
                  | false =>
                    rw [fg_eq_unresolved R st t u hc hd he hr hf] at h
                    injection h with h1
                    injection h1 with hru hst
                    subst hru
                    exact Or.inr ⟨rfl, Or.inr ⟨rfl, Or.inr ⟨rfl,
                      Or.inr ⟨⟨u, rfl⟩, rfl, Or.inr ⟨rfl, hst.symm⟩⟩⟩⟩⟩

theorem leadsWith_self_append (pat rest : List Char) :
    leadsWith pat (pat ++ rest) = true := by
  induction pat with
  | nil => rfl
  | cons a as ih => simp [leadsWith, ih]

theorem drop_length_append (l1 l2 : List Char) :
    (l1 ++ l2).drop l1.length = l2 := by
  induction l1 with
  | nil => rfl
  | cons a as ih =>
    show (as ++ l2).drop as.length = l2
    exact ih

/-- Replacing the first occurrence when the pattern sits at the front
rewrites exactly that front copy. -/
theorem replaceFirst_append (old new rest : List Char) :
    replaceFirst old new (old ++ rest) = new ++ rest := by
  cases old with
  | nil =>
    cases rest with
    | nil => simp [replaceFirst, leadsWith]
    | cons c cs => simp [replaceFirst, leadsWith]
  | cons a as =>
    show replaceFirst (a :: as) new (a :: (as ++ rest)) = new ++ rest
    rw [replaceFirst]
    rw [show leadsWith (a :: as) (a :: (as ++ rest)) = true from
      leadsWith_self_append (a :: as) rest]
    rw [if_pos rfl]
    show new ++ (as ++ rest).drop as.length = new ++ rest
    rw [drop_length_append]

/-- Claim C1 (code divergence): normalize is NOT total in the source: the
empty token raises an IndexError in check_exclusion_rules of both
variants, the one-character Surname token у raises inside replace_suffix
(reading in_str[-2]), and the three-character Surname token ому raises
inside replace_suffix (reading in_str[-4]).  A none result models the
raised exception. -/
theorem C1_crash_cases :
    from_genitive_to_nominative_case nameRules (initState []) [] = none ∧
    from_genitive_to_nominative_case surnameRules (initState []) [] = none ∧
    from_genitive_to_nominative_case surnameRules (initState [])
      "у".data = none ∧
    from_genitive_to_nominative_case surnameRules (initState [])
      "ому".data = none ∧
    NameDeclension.check_exclusion_rules [] = none ∧
    SurnameDeclension.replace_suffix "ому".data = none ∧
    SurnameDeclension.replace_suffix "у".data = none := by decide

/-- Claim C3: when the pattern is a suffix of the token (the only way the
engine invokes the replace helper), Declension.replace rewrites exactly
the trailing span: the result is the prefix of the token with the
trailing pattern-length characters removed, followed by the replacement,
so characters before the matched suffix are never modified even when the
pattern also occurs earlier in the token. -/
theorem C3_replace_suffix_anchored (s r p : Token)
    (h : tailSlice s r.length = r) :
    Declension.replace s r p = s.take (s.length - r.length) ++ p := by
  have hs : s.take (s.length - r.length) ++ r = s := by
    conv_rhs => rw [← List.take_append_drop (s.length - r.length) s]
    rw [show s.drop (s.length - r.length) = r from h]
  have key : s.reverse =
      r.reverse ++ (s.take (s.length - r.length)).reverse := by
    rw [← List.reverse_append, hs]
  unfold Declension.replace
  rw [key, replaceFirst_append, List.reverse_append, List.reverse_reverse,
    List.reverse_reverse]

/-- Witness for C3 at the concrete example used by the spec: the surname
Ковальську with matched suffix ку and replacement ко; the result keeps
the first eight characters untouched. -/
theorem C3_replace_suffix_anchored_witness :
    tailSlice "Ковальську".data ("ку".data).length = "ку".data ∧
    Declension.replace "Ковальську".data "ку".data "ко".data =
      ("Ковальську".data).take
        (("Ковальську".data).length - ("ку".data).length) ++ "ко".data :=
  ⟨by decide,
   C3_replace_suffix_anchored "Ковальську".data "ку".data "ко".data
     (by decide)⟩

/-- Claim C7 counterexample: on the Surname engine with an empty
dictionary and cache, Іваненком is NOT classified as unresolved: the code
excludes it (its final character м is in the surname consonant set),
records it in names_set_filtered and in the cache, and the Unresolved
bucket names_set_not_filtered stays empty. -/
theorem C7_counterexample :
    from_genitive_to_nominative_case surnameRules (initState [])
        "Іваненком".data =
      some ("Іваненком".data,
        ⟨⟨[], []⟩, ["Іваненком".data], [], [],
          [("Іваненком".data, "Іваненком".data)]⟩) ∧
    "Іваненком".data ∉
      ((⟨⟨[], []⟩, ["Іваненком".data], [], [],
        [("Іваненком".data, "Іваненком".data)]⟩ : DecState)
        ).names_set_not_filtered ∧
    SurnameDeclension.check_exclusion_rules "Іваненком".data =
      some true := by decide

/-- Claim C7 amended: normalize of Іваненком on the fresh Surname engine
matches the exclusion predicate (final м is a surname consonant), is
recorded in the filtered bucket, cached mapped to itself, and returned
unchanged. -/
theorem C7_amended_exclusion :
    from_genitive_to_nominative_case surnameRules (initState [])
        "Іваненком".data =
      some ("Іваненком".data,
        ⟨⟨[], []⟩, ["Іваненком".data], [], [],
          [("Іваненком".data, "Іваненком".data)]⟩) ∧
    "Іваненком".data ∈
      ((⟨⟨[], []⟩, ["Іваненком".data], [], [],
        [("Іваненком".data, "Іваненком".data)]⟩ : DecState)
        ).names_set_filtered := by decide

/-- Claim C8: Name engine concrete cases on the fresh engine: Івану drops
the у after н by the у-rule and the result Іван lands in
names_set_replaced; Олексію rewrites by the ію rule to Олексій; Андрія is
excluded on its final я and returned unchanged. -/
theorem C8_name_concrete_cases :
    (from_genitive_to_nominative_case nameRules (initState [])
      "Івану".data).map Prod.fst = some "Іван".data ∧
    NameDeclension.replace_suffix "Івану".data = some (true, "Іван".data) ∧
    (from_genitive_to_nominative_case nameRules (initState [])
      "Івану".data).map (fun q => q.2.names_set_replaced) =
        some ["Іван".data] ∧
    (from_genitive_to_nominative_case nameRules (initState [])
      "Олексію".data).map Prod.fst = some "Олексій".data ∧
    (from_genitive_to_nominative_case nameRules (initState [])
      "Андрія".data).map Prod.fst = some "Андрія".data ∧
    NameDeclension.check_exclusion_rules "Андрія".data = some true ∧
    (from_genitive_to_nominative_case nameRules (initState [])
      "Андрія".data).map (fun q => q.2.names_set_filtered) =
        some ["Андрія".data] := by decide

theorem fill_substitutions_blank_none (line2 : Token)
    (hb : splitWs line2 = []) :
    ∀ (lines : List Token) (d0 : List (Token × Token)), line2 ∈ lines →
      fill_substitutions lines d0 = none := by
  intro lines
  induction lines with
  | nil => intro d0 hmem; cases hmem
  | cons l ls ih =>
    intro d0 hmem
    rcases List.mem_cons.mp hmem with heq | hmem2
    · subst heq
      show fill_substitutions (line2 :: ls) d0 = none
      unfold fill_substitutions
      rw [show fill_line d0 line2 = none from by unfold fill_line; rw [hb]]
    · unfold fill_substitutions
      cases hfl : fill_line d0 l with
      | none => rfl
      | some d2 => exact ih d2 hmem2

/-- Claim C10: the substitution-list loader maps the first field of a
line with three or more whitespace-separated fields to the second,
silently ignoring the remaining fields, while a blank (or
whitespace-only) line is not skipped: its split is empty, pair zero
raises an IndexError, and loading a list containing such a line fails. -/
theorem C10_loader_malformed_lines (d d0 : List (Token × Token))
    (line line2 k v : Token) (more lines : List Token)
    (h3 : splitWs line = k :: v :: more)
    (hb : splitWs line2 = [])
    (hm : line2 ∈ lines) :
    fill_line d line = some ((k, v) :: d) ∧
    fill_line d line2 = none ∧
    fill_substitutions lines d0 = none := by
  refine ⟨?_, ?_, fill_substitutions_blank_none line2 hb lines d0 hm⟩
  · unfold fill_line
    rw [h3]
  · unfold fill_line
    rw [hb]

/-- Witness for C10: the three-field line а б в maps а to б ignoring в;
the whitespace-only line fails, and a load over it fails. -/
theorem C10_loader_malformed_lines_witness :
    fill_line [] "а б в".data = some [("а".data, "б".data)] ∧
    fill_line [] " ".data = none ∧
    fill_substitutions [" ".data] [] = none :=
  C10_loader_malformed_lines [] [] "а б в".data " ".data "а".data "б".data
    ["в".data] [" ".data] (by decide) (by decide) (by decide)

theorem cons_self_ne_none (u w : Token) (c : List (Token × Token)) :
    lookupTable ((u, w) :: c) u ≠ none := by
  rw [lookupTable_cons_self]
  exact Option.some_ne_none w

/-- The engine never mutates the loaded dictionary, and the cache entry of
a dictionary key, when present, is the mapped value. -/
def CacheOK (d : List (Token × Token)) (st : DecState) : Prop :=
  st.sub.dictionary = d ∧
  ∀ t v, lookupTable d t = some v →
    lookupTable st.replaced_dictionary_cache t = none ∨
    lookupTable st.replaced_dictionary_cache t = some v

theorem cacheOK_init (d : List (Token × Token)) : CacheOK d (initState d) :=
  ⟨rfl, fun _ _ _ => Or.inl rfl⟩

theorem cacheNotKey_cons (d cache : List (Token × Token)) (u w : Token)
    (hdu : lookupTable d u = none)
    (hcache : ∀ t v, lookupTable d t = some v →
      lookupTable cache t = none ∨ lookupTable cache t = some v) :
    ∀ t v, lookupTable d t = some v →
      lookupTable ((u, w) :: cache) t = none ∨
      lookupTable ((u, w) :: cache) t = some v := by
  intro t v htv
  rw [lookupTable_cons]
  by_cases hut : u = t
  · rw [← hut] at htv
    rw [hdu] at htv
    exact Option.noConfusion htv
  · rw [if_neg hut]
    exact hcache t v htv

theorem cacheOK_step (R : DeclensionRules) (d : List (Token × Token))
    (st : DecState) (u r : Token) (st2 : DecState)
    (hok : CacheOK d st)
    (hg : from_genitive_to_nominative_case R st u = some (r, st2)) :
    CacheOK d st2 := by
  obtain ⟨hdic, hcache⟩ := hok
  rcases fg_cases R st u r st2 hg with
    ⟨hcs, hst⟩ |
    ⟨hc, ⟨hd, hst⟩ |
      ⟨hd, ⟨he, hru, hst⟩ |
        ⟨he, ⟨hr, hst⟩ |
          ⟨⟨uu, hr⟩, hru, ⟨hf, hst⟩ | ⟨hf, hst⟩⟩⟩⟩⟩
  · subst hst
    exact ⟨hdic, hcache⟩
  · subst hst
    refine ⟨hdic, ?_⟩
    intro t v htv
    rw [lookupTable_cons]
    by_cases hut : u = t
    · rw [if_pos hut]
      have h1 : lookupTable d t = some r := by
        rw [← hut, ← hdic]
        exact hd
      rw [h1] at htv
      injection htv with hrv
      exact Or.inr (by rw [hrv])
    · rw [if_neg hut]
      exact hcache t v htv
  · subst hst
    refine ⟨hdic, cacheNotKey_cons d st.replaced_dictionary_cache u u ?_ hcache⟩
    rw [← hdic]
    exact hd
  · subst hst
    refine ⟨hdic, cacheNotKey_cons d st.replaced_dictionary_cache u r ?_ hcache⟩
    rw [← hdic]
    exact hd
  · subst hst
    exact ⟨hdic, hcache⟩
  · subst hst
    exact ⟨hdic, hcache⟩

theorem cacheOK_run (R : DeclensionRules) (d : List (Token × Token)) :
    ∀ (ts : List Token) (st st2 : DecState),
      CacheOK d st → runAll R st ts = some st2 → CacheOK d st2 := by
  intro ts
  induction ts with
  | nil =>
    intro st st2 hok hrun
    unfold runAll at hrun
    injection hrun with h1
    exact h1 ▸ hok
  | cons t ts ih =>
    intro st st2 hok hrun
    unfold runAll at hrun
    cases hg : from_genitive_to_nominative_case R st t with
    | none =>
      rw [hg] at hrun
      exact Option.noConfusion hrun
    | some p =>
      cases p with
      | mk r st1 =>
        rw [hg] at hrun
        exact ih st1 st2 (cacheOK_step R d st t r st1 hok hg) hrun

/-- Claim C2: for any token that is a key of the substitution dictionary,
a normalize call from any state reachable from the fresh engine returns
exactly the mapped value, for ANY rule set (so regardless of what the
exclusion predicate or the suffix rules would produce for it), and the
cache entry of a dictionary key can only ever be absent or the mapped
value. -/
theorem C2_dictionary_precedence (R : DeclensionRules)
    (d : List (Token × Token)) (ts : List Token) (st2 : DecState)
    (t v : Token)
    (hrun : runAll R (initState d) ts = some st2)
    (hk : lookupTable d t = some v) :
    (from_genitive_to_nominative_case R st2 t).map Prod.fst = some v ∧
    (lookupTable st2.replaced_dictionary_cache t = none ∨
     lookupTable st2.replaced_dictionary_cache t = some v) := by
  have hok : CacheOK d st2 :=
    cacheOK_run R d ts (initState d) st2 (cacheOK_init d) hrun
  obtain ⟨hdic, hcache⟩ := hok
  have hdt : lookupTable st2.sub.dictionary t = some v := by
    rw [hdic]
    exact hk
  refine ⟨?_, hcache t v hk⟩
  rcases hcache t v hk with hnone | hsome
  · rw [fg_eq_dict R st2 t v hnone hdt]
    rfl
  · rw [fg_eq_cached R st2 t v hsome]
    rfl

/-- Witness for C2: a one-entry dictionary on the fresh Name engine,
reached by the empty call sequence. -/
theorem C2_dictionary_precedence_witness :
    (from_genitive_to_nominative_case nameRules
      (initState [("Грицька".data, "Грицько".data)]) "Грицька".data
      ).map Prod.fst = some "Грицько".data ∧
    (lookupTable (initState [("Грицька".data, "Грицько".data)]
        ).replaced_dictionary_cache "Грицька".data = none ∨
     lookupTable (initState [("Грицька".data, "Грицько".data)]
        ).replaced_dictionary_cache "Грицька".data =
       some "Грицько".data) :=
  C2_dictionary_precedence nameRules [("Грицька".data, "Грицько".data)] []
    (initState [("Грицька".data, "Грицько".data)]) "Грицька".data
    "Грицько".data rfl (by decide)

/-- Claim C4: if a normalize call on a token left that token cached (as
the dictionary, exclusion and rule paths all do, and as the first call on
a token can only do through those paths), then a second call with the
same token returns the identical result with the state completely
unchanged: no cache write, no bucket write, no dictionary or replaced_set
write. -/
theorem C4_second_call_no_writes (R : DeclensionRules) (st : DecState)
    (t r : Token) (st2 : DecState)
    (h1 : from_genitive_to_nominative_case R st t = some (r, st2))
    (h2 : lookupTable st2.replaced_dictionary_cache t ≠ none) :
    from_genitive_to_nominative_case R st2 t = some (r, st2) := by
  rcases fg_cases R st t r st2 h1 with
    ⟨hcs, hst⟩ |
    ⟨hc, ⟨hd, hst⟩ |
      ⟨hd, ⟨he, hru, hst⟩ |
        ⟨he, ⟨hr, hst⟩ |
          ⟨⟨uu, hr⟩, hru, ⟨hf, hst⟩ | ⟨hf, hst⟩⟩⟩⟩⟩
  · rw [hst]
    exact fg_eq_cached R st t r hcs
  · rw [hst]
    exact fg_eq_cached R _ t r
      (lookupTable_cons_self t r st.replaced_dictionary_cache)
  · rw [hst, hru]
    exact fg_eq_cached R _ t t
      (lookupTable_cons_self t t st.replaced_dictionary_cache)
  · rw [hst]
    exact fg_eq_cached R _ t r
      (lookupTable_cons_self t r st.replaced_dictionary_cache)
  · rw [hst] at h2
    exact absurd hc h2
  · rw [hst] at h2
    exact absurd hc h2

/-- Witness for C4: second call on the excluded name Андрія. -/
theorem C4_second_call_no_writes_witness :
    from_genitive_to_nominative_case nameRules
      ⟨⟨[], []⟩, ["Андрія".data], [], [],
        [("Андрія".data, "Андрія".data)]⟩ "Андрія".data =
      some ("Андрія".data,
        ⟨⟨[], []⟩, ["Андрія".data], [], [],
          [("Андрія".data, "Андрія".data)]⟩) :=
  C4_second_call_no_writes nameRules (initState []) "Андрія".data
    "Андрія".data
    ⟨⟨[], []⟩, ["Андрія".data], [], [], [("Андрія".data, "Андрія".data)]⟩
    (by decide) (by decide)

/-- Claim C9: a token on the terminal-filter or unresolved path is not
cached: the call leaves the cache exactly as it was, returns the token
unchanged and puts it in its bucket, and a repeated call re-runs the full
decision chain, re-adds the token to the same bucket (a no-op, since
buckets are sets) and again returns it unchanged, with the whole state
unchanged. -/
theorem C9_uncached_rerun (R : DeclensionRules) (st : DecState)
    (t u r : Token) (b : Bool) (st2 : DecState)
    (hc : lookupTable st.replaced_dictionary_cache t = none)
    (hd : lookupTable st.sub.dictionary t = none)
    (he : R.check_exclusion_rules t = some false)
    (hr : R.replace_suffix t = some (false, u))
    (hf : R.check_to_filter_after_all t = some b)
    (h1 : from_genitive_to_nominative_case R st t = some (r, st2)) :
    r = t ∧
    st2.replaced_dictionary_cache = st.replaced_dictionary_cache ∧
    (b = true → t ∈ st2.names_set_filtered) ∧
    (b = false → t ∈ st2.names_set_not_filtered) ∧
    from_genitive_to_nominative_case R st2 t = some (t, st2) := by
  cases b with
  | true =>
    rw [fg_eq_filtered R st t u hc hd he hr hf] at h1
    injection h1 with h2
    injection h2 with hru hst
    subst hst
    refine ⟨hru.symm, rfl, fun _ => addSet_mem_self st.names_set_filtered t,
      fun hb => Bool.noConfusion hb, ?_⟩
    have h3 := fg_eq_filtered R
      ⟨st.sub, addSet st.names_set_filtered t, st.names_set_replaced,
        st.names_set_not_filtered, st.replaced_dictionary_cache⟩
      t u hc hd he hr hf
    rw [addSet_of_mem (addSet st.names_set_filtered t) t
      (addSet_mem_self st.names_set_filtered t)] at h3
    exact h3
  | false =>
    rw [fg_eq_unresolved R st t u hc hd he hr hf] at h1
    injection h1 with h2
    injection h2 with hru hst
    subst hst
    refine ⟨hru.symm, rfl, fun hb => Bool.noConfusion hb,
      fun _ => addSet_mem_self st.names_set_not_filtered t, ?_⟩
    have h3 := fg_eq_unresolved R
      ⟨st.sub, st.names_set_filtered, st.names_set_replaced,
        addSet st.names_set_not_filtered t, st.replaced_dictionary_cache⟩
      t u hc hd he hr hf
    rw [addSet_of_mem (addSet st.names_set_not_filtered t) t
      (addSet_mem_self st.names_set_not_filtered t)] at h3
    exact h3

/-- Witness for C9: the Name token Іване matches no rule and the Name
terminal filter is always false, so it is unresolved and uncached. -/
theorem C9_uncached_rerun_witness :
    "Іване".data = "Іване".data ∧
    ((⟨⟨[], []⟩, [], [], ["Іване".data], []⟩ : DecState)
      ).replaced_dictionary_cache =
      (initState []).replaced_dictionary_cache ∧
    (false = true →
      "Іване".data ∈ ((⟨⟨[], []⟩, [], [], ["Іване".data], []⟩ : DecState)
        ).names_set_filtered) ∧
    (false = false →
      "Іване".data ∈ ((⟨⟨[], []⟩, [], [], ["Іване".data], []⟩ : DecState)
        ).names_set_not_filtered) ∧
    from_genitive_to_nominative_case nameRules
      ⟨⟨[], []⟩, [], [], ["Іване".data], []⟩ "Іване".data =
      some ("Іване".data, ⟨⟨[], []⟩, [], [], ["Іване".data], []⟩) :=
  C9_uncached_rerun nameRules (initState []) "Іване".data "Іване".data
    "Іване".data false ⟨⟨[], []⟩, [], [], ["Іване".data], []⟩
    (by decide) (by decide) (by decide) (by decide) (by decide) (by decide)

theorem step_accounts_self (R : DeclensionRules) (st : DecState)
    (u r : Token) (st2 : DecState)
    (hg : from_genitive_to_nominative_case R st u = some (r, st2)) :
    u ∈ st2.names_set_filtered ∨ u ∈ st2.names_set_not_filtered ∨
      lookupTable st2.replaced_dictionary_cache u ≠ none := by
  rcases fg_cases R st u r st2 hg with
    ⟨hcs, hst⟩ |
    ⟨hc, ⟨hd, hst⟩ |
      ⟨hd, ⟨he, hru, hst⟩ |
        ⟨he, ⟨hr, hst⟩ |
          ⟨⟨uu, hr⟩, hru, ⟨hf, hst⟩ | ⟨hf, hst⟩⟩⟩⟩⟩
  · rw [hst]
    refine Or.inr (Or.inr ?_)
    rw [hcs]
    exact Option.some_ne_none r
  · rw [hst]
    exact Or.inr (Or.inr
      (cons_self_ne_none u r st.replaced_dictionary_cache))
  · rw [hst]
    exact Or.inl (addSet_mem_self st.names_set_filtered u)
  · rw [hst]
    exact Or.inr (Or.inr
      (cons_self_ne_none u r st.replaced_dictionary_cache))
  · rw [hst]
    exact Or.inl (addSet_mem_self st.names_set_filtered u)
  · rw [hst]
    exact Or.inr (Or.inl (addSet_mem_self st.names_set_not_filtered u))

theorem step_preserves_accounted (R : DeclensionRules) (st : DecState)
    (u r : Token) (st2 : DecState) (x : Token)
    (hg : from_genitive_to_nominative_case R st u = some (r, st2))
    (hx : x ∈ st.names_set_filtered ∨ x ∈ st.names_set_not_filtered ∨
      lookupTable st.replaced_dictionary_cache x ≠ none) :
    x ∈ st2.names_set_filtered ∨ x ∈ st2.names_set_not_filtered ∨
      lookupTable st2.replaced_dictionary_cache x ≠ none := by
  rcases fg_cases R st u r st2 hg with
    ⟨hcs, hst⟩ |
    ⟨hc, ⟨hd, hst⟩ |
      ⟨hd, ⟨he, hru, hst⟩ |
        ⟨he, ⟨hr, hst⟩ |
          ⟨⟨uu, hr⟩, hru, ⟨hf, hst⟩ | ⟨hf, hst⟩⟩⟩⟩⟩
  · rw [hst]
    exact hx
  · rw [hst]
    rcases hx with h | h | h
    · exact Or.inl h
    · exact Or.inr (Or.inl h)
    · exact Or.inr (Or.inr
        (lookupTable_cons_ne_none u r st.replaced_dictionary_cache x h))
  · rw [hst]
    rcases hx with h | h | h
    · exact Or.inl (mem_addSet_of_mem st.names_set_filtered u x h)
    · exact Or.inr (Or.inl h)
    · exact Or.inr (Or.inr
        (lookupTable_cons_ne_none u u st.replaced_dictionary_cache x h))
  · rw [hst]
    rcases hx with h | h | h
    · exact Or.inl h
    · exact Or.inr (Or.inl h)
    · exact Or.inr (Or.inr
        (lookupTable_cons_ne_none u r st.replaced_dictionary_cache x h))
  · rw [hst]
    rcases hx with h | h | h
    · exact Or.inl (mem_addSet_of_mem st.names_set_filtered u x h)
    · exact Or.inr (Or.inl h)
    · exact Or.inr (Or.inr h)
  · rw [hst]
    rcases hx with h | h | h
    · exact Or.inl h
    · exact Or.inr (Or.inl (mem_addSet_of_mem st.names_set_not_filtered u x h))
    · exact Or.inr (Or.inr h)

theorem runAll_preserves_accounted (R : DeclensionRules) :
    ∀ (ts : List Token) (st st2 : DecState) (x : Token),
      runAll R st ts = some st2 →
      (x ∈ st.names_set_filtered ∨ x ∈ st.names_set_not_filtered ∨
        lookupTable st.replaced_dictionary_cache x ≠ none) →
      (x ∈ st2.names_set_filtered ∨ x ∈ st2.names_set_not_filtered ∨
        lookupTable st2.replaced_dictionary_cache x ≠ none) := by
  intro ts
  induction ts with
  | nil =>
    intro st st2 x hrun hx
    unfold runAll at hrun
    injection hrun with h1
    exact h1 ▸ hx
  | cons t ts ih =>
    intro st st2 x hrun hx
    unfold runAll at hrun
    cases hg : from_genitive_to_nominative_case R st t with
    | none =>
      rw [hg] at hrun
      exact Option.noConfusion hrun
    | some p =>
      cases p with
      | mk r st1 =>
        rw [hg] at hrun
        exact ih st1 st2 x hrun
          (step_preserves_accounted R st t r st1 x hg hx)

theorem runAll_accounts (R : DeclensionRules) :
    ∀ (ts : List Token) (st st2 : DecState),
      runAll R st ts = some st2 →
      ∀ x ∈ ts, x ∈ st2.names_set_filtered ∨
        x ∈ st2.names_set_not_filtered ∨
        lookupTable st2.replaced_dictionary_cache x ≠ none := by
  intro ts
  induction ts with
  | nil =>
    intro st st2 _ x hx
    cases hx
  | cons t ts ih =>
    intro st st2 hrun x hx
    unfold runAll at hrun
    cases hg : from_genitive_to_nominative_case R st t with
    | none =>
      rw [hg] at hrun
      exact Option.noConfusion hrun
    | some p =>
      cases p with
      | mk r st1 =>
        rw [hg] at hrun
        rcases List.mem_cons.mp hx with hxe | hxm
        · subst hxe
          exact runAll_preserves_accounted R ts st1 st2 x hrun
            (step_accounts_self R st x r st1 hg)
        · exact ih st1 st2 hrun x hxm

/-- Claim C5 counterexample: on the fresh Name engine, normalize of Івану
takes the suffix-rule path, yet the input token Івану appears in NO
classification bucket set (only the rewritten result Іван is added to
names_set_replaced), and Івану is not a dictionary hit (the dictionary is
empty); this refutes that every input token other than a dictionary hit
appears in a bucket, and in particular that a rule-rewritten token itself
appears in the Replaced-by-rule bucket. -/
theorem C5_counterexample :
    from_genitive_to_nominative_case nameRules (initState [])
        "Івану".data =
      some ("Іван".data,
        ⟨⟨[], []⟩, [], ["Іван".data], [],
          [("Івану".data, "Іван".data)]⟩) ∧
    "Івану".data ∉
      ((⟨⟨[], []⟩, [], ["Іван".data], [],
        [("Івану".data, "Іван".data)]⟩ : DecState)).names_set_filtered ∧
    "Івану".data ∉
      ((⟨⟨[], []⟩, [], ["Іван".data], [],
        [("Івану".data, "Іван".data)]⟩ : DecState)).names_set_replaced ∧
    "Івану".data ∉
      ((⟨⟨[], []⟩, [], ["Іван".data], [],
        [("Івану".data, "Іван".data)]⟩ : DecState)).names_set_not_filtered ∧
    lookupTable [] "Івану".data = none := by decide

/-- Claim C5 amended: over every successful sequence of normalize calls
from a fresh engine, every processed token is recorded either in a bucket
set or in the cache (exclusion, terminal-filter and unresolved tokens go
to a bucket; dictionary-hit and rule-rewritten input tokens are recorded
via the cache only), and on the suffix-rule path it is the rewritten
result, not the input token, that is added to names_set_replaced, while
the cache maps the input token to that result. -/
theorem C5_amended_accounting (R : DeclensionRules)
    (d : List (Token × Token)) (ts : List Token) (st2 : DecState)
    (x : Token) (st : DecState) (t w : Token) (st3 : DecState)
    (hrun : runAll R (initState d) ts = some st2)
    (hx : x ∈ ts)
    (hc : lookupTable st.replaced_dictionary_cache t = none)
    (hd : lookupTable st.sub.dictionary t = none)
    (he : R.check_exclusion_rules t = some false)
    (hr : R.replace_suffix t = some (true, w))
    (h3 : from_genitive_to_nominative_case R st t = some (w, st3)) :
    (x ∈ st2.names_set_filtered ∨ x ∈ st2.names_set_not_filtered ∨
      lookupTable st2.replaced_dictionary_cache x ≠ none) ∧
    w ∈ st3.names_set_replaced ∧
    lookupTable st3.replaced_dictionary_cache t = some w := by
  refine ⟨runAll_accounts R ts (initState d) st2 hrun x hx, ?_, ?_⟩
  · rw [fg_eq_rule R st t w hc hd he hr] at h3
    injection h3 with h4
    injection h4 with hw hst
    rw [← hst]
    exact addSet_mem_self st.names_set_replaced w
  · rw [fg_eq_rule R st t w hc hd he hr] at h3
    injection h3 with h4
    injection h4 with hw hst
    rw [← hst]
    exact lookupTable_cons_self t w st.replaced_dictionary_cache

/-- Witness for C5: the sequence consisting of the single Name token
Івану; the token itself is accounted for through the cache, and Іван is
the element recorded in names_set_replaced. -/
theorem C5_amended_accounting_witness :
    ("Івану".data ∈
      ((⟨⟨[], []⟩, [], ["Іван".data], [],
        [("Івану".data, "Іван".data)]⟩ : DecState)).names_set_filtered ∨
     "Івану".data ∈
      ((⟨⟨[], []⟩, [], ["Іван".data], [],
        [("Івану".data, "Іван".data)]⟩ : DecState)).names_set_not_filtered ∨
     lookupTable ((⟨⟨[], []⟩, [], ["Іван".data], [],
        [("Івану".data, "Іван".data)]⟩ : DecState)).replaced_dictionary_cache
       "Івану".data ≠ none) ∧
    "Іван".data ∈
      ((⟨⟨[], []⟩, [], ["Іван".data], [],
        [("Івану".data, "Іван".data)]⟩ : DecState)).names_set_replaced ∧
    lookupTable ((⟨⟨[], []⟩, [], ["Іван".data], [],
        [("Івану".data, "Іван".data)]⟩ : DecState)).replaced_dictionary_cache
      "Івану".data = some "Іван".data :=
  C5_amended_accounting nameRules [] ["Івану".data]
    ⟨⟨[], []⟩, [], ["Іван".data], [], [("Івану".data, "Іван".data)]⟩
    "Івану".data (initState []) "Івану".data "Іван".data
    ⟨⟨[], []⟩, [], ["Іван".data], [], [("Івану".data, "Іван".data)]⟩
    (by decide) (by decide) (by decide) (by decide) (by decide) (by decide)
    (by decide)

/-- Claim C6 counterexample: after normalizing the exclusion-matched
surname Іваненко and the terminal-filter-matched surname Андрей on the
fresh Surname engine, BOTH tokens sit in the same set
names_set_filtered, while names_set_replaced and names_set_not_filtered
are empty: the engine has only three bucket sets, and the
exclusion outcome is not distinguishable from the terminal-filter
outcome. -/
theorem C6_counterexample :
    runAll surnameRules (initState [])
        ["Іваненко".data, "Андрей".data] =
      some ⟨⟨[], []⟩, ["Андрей".data, "Іваненко".data], [], [],
        [("Іваненко".data, "Іваненко".data)]⟩ ∧
    "Іваненко".data ∈
      ((⟨⟨[], []⟩, ["Андрей".data, "Іваненко".data], [], [],
        [("Іваненко".data, "Іваненко".data)]⟩ : DecState)
        ).names_set_filtered ∧
    "Андрей".data ∈
      ((⟨⟨[], []⟩, ["Андрей".data, "Іваненко".data], [], [],
        [("Іваненко".data, "Іваненко".data)]⟩ : DecState)
        ).names_set_filtered ∧
    SurnameDeclension.check_exclusion_rules "Іваненко".data = some true ∧
    SurnameDeclension.check_exclusion_rules "Андрей".data = some false ∧
    SurnameDeclension.check_to_filter_after_all "Андрей".data =
      some true ∧
    ((⟨⟨[], []⟩, ["Андрей".data, "Іваненко".data], [], [],
      [("Іваненко".data, "Іваненко".data)]⟩ : DecState)
      ).names_set_replaced = [] ∧
    ((⟨⟨[], []⟩, ["Андрей".data, "Іваненко".data], [], [],
      [("Іваненко".data, "Іваненко".data)]⟩ : DecState)
      ).names_set_not_filtered = [] := by decide

/-- Claim C6 amended: the engine keeps three classification bucket sets,
and an exclusion-matched token and a terminal-filter-matched token are
recorded in the SAME set names_set_filtered (for any rule set): after an
exclusion-path call and then a terminal-filter-path call, both tokens are
members of names_set_filtered of the final state, while the other two
bucket sets are exactly as before the two calls. -/
theorem C6_amended_same_bucket (R : DeclensionRules)
    (st stE stF : DecState) (tE tF uF rE rF : Token)
    (hcE : lookupTable st.replaced_dictionary_cache tE = none)
    (hdE : lookupTable st.sub.dictionary tE = none)
    (heE : R.check_exclusion_rules tE = some true)
    (h1 : from_genitive_to_nominative_case R st tE = some (rE, stE))
    (hcF : lookupTable stE.replaced_dictionary_cache tF = none)
    (hdF : lookupTable stE.sub.dictionary tF = none)
    (heF : R.check_exclusion_rules tF = some false)
    (hrF : R.replace_suffix tF = some (false, uF))
    (hfF : R.check_to_filter_after_all tF = some true)
    (h2 : from_genitive_to_nominative_case R stE tF = some (rF, stF)) :
    tE ∈ stF.names_set_filtered ∧ tF ∈ stF.names_set_filtered ∧
    stF.names_set_replaced = st.names_set_replaced ∧
    stF.names_set_not_filtered = st.names_set_not_filtered := by
  rw [fg_eq_excl R st tE hcE hdE heE] at h1
  injection h1 with h1a
  injection h1a with hrE hstE
  rw [← hstE] at h2 hcF hdF
  rw [fg_eq_filtered R _ tF uF hcF hdF heF hrF hfF] at h2
  injection h2 with h2a
  injection h2a with hrF2 hstF
  rw [← hstF]
  refine ⟨?_, ?_, rfl, rfl⟩
  · exact mem_addSet_of_mem (addSet st.names_set_filtered tE) tF tE
      (addSet_mem_self st.names_set_filtered tE)
  · exact addSet_mem_self (addSet st.names_set_filtered tE) tF

/-- Witness for C6: the Surname engine, the excluded Іваненко and the
terminal-filtered Андрей: both end in names_set_filtered of the final
state. -/
theorem C6_amended_same_bucket_witness :
    "Іваненко".data ∈
      ((⟨⟨[], []⟩, ["Андрей".data, "Іваненко".data], [], [],
        [("Іваненко".data, "Іваненко".data)]⟩ : DecState)
        ).names_set_filtered ∧
    "Андрей".data ∈
      ((⟨⟨[], []⟩, ["Андрей".data, "Іваненко".data], [], [],
        [("Іваненко".data, "Іваненко".data)]⟩ : DecState)
        ).names_set_filtered ∧
    ((⟨⟨[], []⟩, ["Андрей".data, "Іваненко".data], [], [],
      [("Іваненко".data, "Іваненко".data)]⟩ : DecState)
      ).names_set_replaced = (initState []).names_set_replaced ∧
    ((⟨⟨[], []⟩, ["Андрей".data, "Іваненко".data], [], [],
      [("Іваненко".data, "Іваненко".data)]⟩ : DecState)
      ).names_set_not_filtered = (initState []).names_set_not_filtered :=
  C6_amended_same_bucket surnameRules (initState [])
    ⟨⟨[], []⟩, ["Іваненко".data], [], [],
      [("Іваненко".data, "Іваненко".data)]⟩
    ⟨⟨[], []⟩, ["Андрей".data, "Іваненко".data], [], [],
      [("Іваненко".data, "Іваненко".data)]⟩
    "Іваненко".data "Андрей".data "Андрей".data "Іваненко".data
    "Андрей".data
    (by decide) (by decide) (by decide) (by decide) (by decide) (by decide)
    (by decide) (by decide) (by decide) (by decide)
